import Mathlib

/-!
Verification development for the Email-AI background sync orchestrator.

The JavaScript source is shallowly embedded: JS strings become `String`,
JS numbers used as statistics counters become `ℚ`, fallible external
collaborator calls (network fetches, Chrome APIs) become `Except String`
outcomes supplied by an environment record, and the mutable extension
storage plus the module-level in-progress flag become an explicit `Store`
record threaded through the functions.  Each embedded definition carries a
comment naming the source file and function it translates.
-/

namespace EmailAI

/-! JavaScript primitive helpers -/

/-- Test whether the pattern list occurs at the head of the other list. -/
def segStarts : List Char → List Char → Bool
  | [], _ => true
  | _ :: _, [] => false
  | a :: as, b :: bs => (a = b : Bool) && segStarts as bs

/-- Test whether the pattern list occurs contiguously anywhere in the list. -/
def segOccurs (pat : List Char) : List Char → Bool
  | [] => pat.isEmpty
  | c :: cs => segStarts pat (c :: cs) || segOccurs pat cs

/-- JS `s.includes(sub)`: substring occurrence test. -/
def jsIncludes (s sub : String) : Bool :=
  segOccurs sub.toList s.toList

/-- JS `a || b` on strings: the empty string is falsy. -/
def jsOrString (a b : String) : String :=
  if a = "" then b else a

/-- JS `s.toLowerCase()`, character by character (ASCII case folding, the
range the embedded keyword comparisons exercise). -/
def jsToLower (s : String) : String :=
  String.mk (s.toList.map Char.toLower)

/-- JS `s.trim()`: strip whitespace from both ends. -/
def jsTrim (s : String) : String :=
  String.mk (((s.toList.dropWhile Char.isWhitespace).reverse.dropWhile
    Char.isWhitespace).reverse)

/-- JS `s.substring(start, stop)` (for `start ≤ stop`). -/
def jsSubstring (s : String) (start stop : Nat) : String :=
  String.mk ((s.toList.drop start).take (stop - start))

/-! Data model: categories and classification records.
Source: src/utils/constants.js, `EMAIL_CATEGORIES`. -/

/-- The closed list of category strings, JS `Object.values(EMAIL_CATEGORIES)`. -/
def EMAIL_CATEGORIES : List String :=
  ["Notification", "Respond", "Advertisement"]

/-- Result record of the classification stage: `{category, summary}`. -/
structure Classification where
  category : String
  summary : String
deriving DecidableEq

/-- Metadata handed to the classifier: `{subject, from}`.
The JS field `from` is a Lean keyword, so it is named `sender` here. -/
structure EmailMeta where
  subject : String
  sender : String
deriving DecidableEq

/-! Fallback keyword classifier.
Source: src/services/classifyEmail.js, `fallbackClassification`. -/

def adKeywords : List String :=
  ["unsubscribe", "promotion", "discount", "offer", "sale", "marketing", "advertisement"]

def notificationKeywords : List String :=
  ["notification", "alert", "confirmation", "receipt", "automated", "no-reply", "noreply"]

def responseKeywords : List String :=
  ["?", "please", "could you", "can you", "need", "request", "help", "question"]

/-- Keyword-rule classifier used when the AI collaborator is unavailable.
Translates `fallbackClassification(summary, metadata)` line by line:
lower-case the subject, sender and summary text, then test the three
keyword tiers in order, defaulting to Notification. -/
def fallbackClassification (summary : String) (metadata : EmailMeta) : Classification :=
  let subject := jsToLower metadata.subject
  let sender := jsToLower metadata.sender
  let text := jsToLower summary
  if adKeywords.any (fun k => jsIncludes text k || jsIncludes subject k) then
    { category := "Advertisement", summary := "Marketing or promotional email" }
  else if notificationKeywords.any (fun k => jsIncludes sender k || jsIncludes subject k) then
    { category := "Notification", summary := "Automated notification or confirmation" }
  else if responseKeywords.any (fun k => jsIncludes text k || jsIncludes subject k) then
    { category := "Respond", summary := "Email requires response or action" }
  else
    { category := "Notification", summary := jsSubstring summary 0 100 }

/-! Response parsing.
Source: src/services/classifyEmail.js, `parseClassificationResponse`. -/

/-- Abstraction of a parsed JSON object: the two fields the parser reads,
each possibly absent.  A `none` field models a missing JS property. -/
structure ParsedJson where
  category : Option String
  summary : Option String

/-- Translates `parseClassificationResponse(content)`.  The regex match
`content.match(/\x7b[\s\S]*\x7d/)` followed by `JSON.parse` is abstracted
as the function argument `extractJson`; a `none` result covers both the
no-JSON-found branch and a `JSON.parse` exception, which the source
handles identically in its catch block.  The category coercion from the
source is translated exactly: a recognized category string is kept, any
other value becomes Notification. -/
def parseClassificationResponse (extractJson : String → Option ParsedJson)
    (content : String) : Classification :=
  match extractJson content with
  | some parsed =>
    let category :=
      match parsed.category with
      | some c => if EMAIL_CATEGORIES.contains c then c else "Notification"
      | none => "Notification"
    let summary :=
      match parsed.summary with
      | some s => jsOrString s "No summary available"
      | none => "No summary available"
    { category := category, summary := summary }
  | none =>
    { category := "Notification", summary := "Classification failed" }

/-! Classification service entry point.
Source: src/services/classifyEmail.js, `classifyEmail`. -/

/-- Environment of the classification service: whether the OpenRouter API
key is configured, the outcome of `makeClassificationRequest` (an
`Except` models a thrown error), and the JSON extraction behavior. -/
structure ClassifierEnv where
  apiKeyPresent : Bool
  requestOutcome : Except String String
  extractJson : String → Option ParsedJson

/-- Translates `classifyEmail(emailSummary, emailMetadata)`: without an API
key, or when the request throws, fall back to the keyword classifier;
otherwise parse the response content. -/
def classifyEmail (env : ClassifierEnv) (emailSummary : String)
    (emailMetadata : EmailMeta) : Classification :=
  if env.apiKeyPresent = false then
    fallbackClassification emailSummary emailMetadata
  else
    match env.requestOutcome with
    | .ok content => parseClassificationResponse env.extractJson content
    | .error _ => fallbackClassification emailSummary emailMetadata

/-! Dedup store.
Source: src/utils/storage.js, `markEmailAsProcessed` and `isEmailProcessed`.
The processed-email list is kept polymorphic in the id type; the
orchestrator instantiates it at `String`. -/

/-- Translates `markEmailAsProcessed(emailId)`: if the id is already in the
list do nothing, otherwise push it and keep only the last 1000 entries
(JS `processed.slice(-1000)` becomes dropping all but the last 1000). -/
def markEmailAsProcessed {α : Type} [DecidableEq α] (processed : List α) (emailId : α) :
    List α :=
  if emailId ∈ processed then processed
  else
    let pushed := processed ++ [emailId]
    pushed.drop (pushed.length - 1000)

/-- Translates `isEmailProcessed(emailId)`: membership in the stored list. -/
def isEmailProcessed {α : Type} [DecidableEq α] (processed : List α) (emailId : α) : Bool :=
  emailId ∈ processed

/-! Statistics aggregator.
Source: src/utils/storage.js, `incrementStatistic`. -/

/-- Statistics record: a JS object with numeric fields, modelled as a
total map from field name to value (absent fields read as 0, matching
JS `stats[counter] || 0`), plus the `lastUpdated` timestamp. -/
structure Statistics where
  fields : String → ℚ
  lastUpdated : Nat

/-- Pointwise map update used for JS property assignment. -/
def setField (f : String → ℚ) (k : String) (v : ℚ) : String → ℚ :=
  fun q => if q = k then v else f q

/-- Translates `incrementStatistic(counter, amount)`: read-modify-write of
one counter and a fresh `lastUpdated` timestamp. -/
def incrementStatistic (stats : Statistics) (counter : String) (amount : ℚ)
    (now : Nat) : Statistics :=
  { fields := setField stats.fields counter (stats.fields counter + amount)
    lastUpdated := now }

/-! Messages and persisted state. -/

/-- Message record as produced by the mailbox client (the fields the
orchestrator reads).  JS `from` is named `sender`. -/
structure Email where
  id : String
  threadId : String
  subject : String
  sender : String
  body : String
  snippet : String
deriving DecidableEq

/-- Persisted extension storage together with the module-level
`isProcessing` flag of the background worker. -/
structure Store where
  processed : List String
  stats : Statistics
  lastSync : Option Nat
  isProcessing : Bool

/-- User settings, src/utils/constants.js `DEFAULT_SETTINGS` shape. -/
structure Settings where
  autoSync : Bool
  autoApplyLabels : Bool
  autoDraft : Bool
  enableTranslation : Bool
  defaultTone : String
deriving DecidableEq

/-! Draft sub-pipeline stage services. -/

/-- Boolean success test for an `Except` outcome. -/
def exceptOk {ε α : Type} : Except ε α → Bool
  | .ok _ => true
  | .error _ => false

/-- Translates `summarizeEmail(emailContent)` from
src/services/summarizeEmail.js: without an API key, or when the request
throws, fall back to the first 500 characters of the raw content. -/
def summarizeEmail (apiKeyPresent : Bool) (requestOutcome : Except String String)
    (emailContent : String) : String :=
  if apiKeyPresent = false then jsSubstring emailContent 0 500 ++ "..."
  else
    match requestOutcome with
    | .ok summary => summary
    | .error _ => jsSubstring emailContent 0 500 ++ "..."

/-- Translates `extractName(from)` from src/services/generateDraft.js:
take the display name before an angle bracket, else the local part of the
address with dots and underscores replaced by spaces, else a generic
salutation. -/
def extractName (sender : String) : String :=
  if sender = "" then "there"
  else
    let cs := sender.toList
    if cs.contains '<' && !(cs.headD ' ' = '<') then
      jsTrim (String.mk (cs.takeWhile (fun c => !(c = '<'))))
    else if cs.contains '@' && !(cs.headD ' ' = '@') then
      jsTrim (String.mk ((cs.takeWhile (fun c => !(c = '@'))).map
        (fun c => if c = '.' || c = '_' then ' ' else c)))
    else "there"

/-- Translates `generateSimpleDraft(emailData)` from
src/services/generateDraft.js: the deterministic no-API draft text. -/
def generateSimpleDraft (email : Email) : String :=
  "Thank you for your email, " ++ extractName email.sender ++
  ".\n\nI have received your message regarding \"" ++ email.subject ++
  "\" and will review it carefully.\n\nI will get back to you with a detailed response shortly.\n\nBest regards"

/-- Translates `generateDraft(emailData)` from src/services/generateDraft.js:
the Writer-API call is the collaborator outcome; an empty or failed result
falls back to the simple deterministic draft.  The hard-coded demo
branches keyed on exact subject text are subsumed in the collaborator
outcome (spec section 9 excludes them as non-general demo behavior). -/
def generateDraft (writerOutcome : Except String String) (email : Email) : String :=
  match writerOutcome with
  | .ok draft => jsOrString draft (generateSimpleDraft email)
  | .error _ => generateSimpleDraft email

/-- Translates `rewriteDraft(draftText, style)` (service file imported as
src/services/rewriteDraft.js): without an API key return the original
draft; when the rewrite request throws, return the original draft. -/
def rewriteDraft (apiKeyPresent : Bool) (requestOutcome : Except String String)
    (draftText : String) : String :=
  if apiKeyPresent = false then draftText
  else
    match requestOutcome with
    | .ok rewritten => rewritten
    | .error _ => draftText

/-- Translates `simpleLanguageDetection(text)` (translate service):
regex character-class probes for common non-English scripts, checked in
the source order, defaulting to English. -/
def simpleLanguageDetection (text : String) : String :=
  let cs := text.toList
  let hasSpanishChars := cs.any (fun c => "áéíóúñ¿¡ÁÉÍÓÚÑ".toList.contains c)
  let hasFrenchChars := cs.any (fun c => "àâçèéêëîïôùûüÀÂÇÈÉÊËÎÏÔÙÛÜ".toList.contains c)
  let hasGermanChars := cs.any (fun c => "äöüßÄÖÜ".toList.contains c)
  let hasCyrillicChars := cs.any (fun c =>
    (0x410 ≤ c.toNat && c.toNat ≤ 0x44F))
  let hasChineseChars := cs.any (fun c => (0x4E00 ≤ c.toNat && c.toNat ≤ 0x9FA5))
  let hasJapaneseChars := cs.any (fun c =>
    (0x3040 ≤ c.toNat && c.toNat ≤ 0x309F) || (0x30A0 ≤ c.toNat && c.toNat ≤ 0x30FF))
  if hasCyrillicChars then "ru"
  else if hasChineseChars then "zh"
  else if hasJapaneseChars then "ja"
  else if hasSpanishChars then "es"
  else if hasFrenchChars then "fr"
  else if hasGermanChars then "de"
  else "en"

/-- Translates `detectLanguage(text)` (translate service): a successful
detector call returns its language code; the low-confidence and error
branches both fall back to `simpleLanguageDetection`, so they are merged
into the error outcome. -/
def detectLanguage (detectorOutcome : Except String String) (text : String) : String :=
  match detectorOutcome with
  | .ok lang => lang
  | .error _ => simpleLanguageDetection text

/-- Translates `translateText(text, targetLang, sourceLang)` as called with
an explicit source language: the translator call either yields the
translated text or, on unavailability or a thrown error, the original
text (both translate-service variants return the input on failure). -/
def translateText (translatorOutcome : Except String String) (text : String) : String :=
  match translatorOutcome with
  | .ok translated => translated
  | .error _ => text

/-- Translates `translateDraftIfNeeded(draftText, originalEmailText)`
(service file imported as src/services/translateDraft.js): pass through
when translation is disabled or the detected language is English,
otherwise translate with fallback to the untouched draft. -/
def translateDraftIfNeeded (settings : Settings)
    (detectorOutcome : Except String String)
    (translatorOutcome : String → Except String String)
    (draftText originalEmailText : String) : String :=
  if settings.enableTranslation = false then draftText
  else
    let detectedLang := detectLanguage detectorOutcome originalEmailText
    if detectedLang = "en" then draftText
    else translateText (translatorOutcome draftText) draftText

/-- Translates `proofreadDraft(draftText)` from
src/services/proofreadDraft.js: without an API key return the original
draft; when the proofread request throws, return the original draft. -/
def proofreadDraft (apiKeyPresent : Bool) (requestOutcome : Except String String)
    (draftText : String) : String :=
  if apiKeyPresent = false then draftText
  else
    match requestOutcome with
    | .ok corrected => corrected
    | .error _ => draftText

/-- Receipt returned by the Gmail drafts endpoint. -/
structure DraftReceipt where
  draftId : String
deriving DecidableEq

/-- Translates `createDraft(threadId, to, subject, body)` from
src/services/gmailAPI.js: a failed fetch or non-ok response is rethrown,
a successful response yields the created draft object.  The network call
is the collaborator outcome, keyed by the published body text. -/
def createDraft (fetchOutcome : Except String DraftReceipt)
    (_threadId _to _subject _body : String) : Except String DraftReceipt :=
  match fetchOutcome with
  | .ok draft => .ok draft
  | .error e => .error e

/-! Orchestrator environment.
Bundles the authentication state, the settings read from storage, the
clock, and one outcome function per external collaborator call made by
the background worker (src/background/background.js, the file shipped as
src/unnamed/part_000). -/

structure Env where
  authenticated : Bool
  settings : Settings
  now : Nat
  fetchUnreadEmails : Except String (List Email)
  summarizerKeyPresent : Bool
  summarizeOutcome : String → Except String String
  classifier : ClassifierEnv
  customClassify : Email → List String
  applyLabel : String → String → Except String Unit
  writerOutcome : Email → Except String String
  rewriterKeyPresent : Bool
  rewriteOutcome : String → Except String String
  detectorOutcome : String → Except String String
  translatorOutcome : String → Except String String
  proofreaderKeyPresent : Bool
  proofreadOutcome : String → Except String String
  createDraftOutcome : String → Except String DraftReceipt

/-- JS `email.body || email.snippet` used for both summarization and
language detection. -/
def emailContentOf (email : Email) : String :=
  jsOrString email.body email.snippet

/-- The summary computed in step 1 of `processEmail`. -/
def summaryOf (env : Env) (email : Email) : String :=
  summarizeEmail env.summarizerKeyPresent
    (env.summarizeOutcome (emailContentOf email)) (emailContentOf email)

/-- The classification computed in step 2 of `processEmail`. -/
def classificationOf (env : Env) (email : Email) : Classification :=
  classifyEmail env.classifier (summaryOf env email)
    { subject := email.subject, sender := email.sender }

/-- Step 3 of `processEmail`: apply the category label when
`autoApplyLabels` is set.  The call is not wrapped in an inner
try/catch in the source, so its error propagates. -/
def labelStepResult (env : Env) (email : Email) : Except String Unit :=
  if env.settings.autoApplyLabels then
    env.applyLabel email.id (classificationOf env email).category
  else .ok ()

/-! Draft sub-pipeline.
Source: src/unnamed/part_000, `generateDraftReply`. -/

/-- Draft text after stage 4a (generate). -/
def draftAfterGenerate (env : Env) (email : Email) : String :=
  generateDraft (env.writerOutcome email) email

/-- Draft text after stage 4b (rewrite). -/
def draftAfterRewrite (env : Env) (email : Email) : String :=
  rewriteDraft env.rewriterKeyPresent
    (env.rewriteOutcome (draftAfterGenerate env email)) (draftAfterGenerate env email)

/-- Draft text after stage 4c (translate if needed). -/
def draftAfterTranslate (env : Env) (email : Email) : String :=
  translateDraftIfNeeded env.settings (env.detectorOutcome (emailContentOf email))
    env.translatorOutcome (draftAfterRewrite env email) (emailContentOf email)

/-- Draft text after stage 4d (proofread); this is the text published. -/
def draftAfterProofread (env : Env) (email : Email) : String :=
  proofreadDraft env.proofreaderKeyPresent
    (env.proofreadOutcome (draftAfterTranslate env email)) (draftAfterTranslate env email)

/-- Translates `generateDraftReply(email)`: generate, rewrite, translate
and proofread in order, then create the Gmail draft.  The catch block in
the source rethrows, so a publish failure propagates as the error. -/
def generateDraftReply (env : Env) (email : Email) : Except String DraftReceipt :=
  createDraft (env.createDraftOutcome (draftAfterProofread env email))
    email.threadId email.sender email.subject (draftAfterProofread env email)

/-! Message processor.
Source: src/unnamed/part_000, `processEmail`. -/

/-- Terminal record for one message, the shape returned by `processEmail`:
the failure branch carries only the id and the error message. -/
structure ProcessingResult where
  success : Bool
  emailId : String
  category : Option String
  summary : Option String
  customLabels : Option (List String)
  errorMsg : Option String
deriving DecidableEq

/-- Holds when `processEmail` takes the branch that increments the
draftsGenerated and hoursSaved counters: the label step succeeded, the
category is Respond, autoDraft is on, and the draft sub-pipeline
succeeded. -/
def draftCounted (env : Env) (email : Email) : Bool :=
  exceptOk (labelStepResult env email) &&
  (((classificationOf env email).category == "Respond") && env.settings.autoDraft) &&
  exceptOk (generateDraftReply env email)

/-- Translates `processEmail(email)`: summarize, classify, apply the
category label, run the best-effort custom-label stage, then draft when
the category is Respond and autoDraft is on.  The outer catch converts
any propagated error into a failed result; custom-label errors (including
custom label application failures) are swallowed by the inner catch and
the applied custom labels have no further effect on the model state. -/
def processEmail (env : Env) (st : Store) (email : Email) : Store × ProcessingResult :=
  let classification := classificationOf env email
  match labelStepResult env email with
  | .error e =>
    (st, { success := false, emailId := email.id, category := none,
           summary := none, customLabels := none, errorMsg := some e })
  | .ok _ =>
    let customLabels := env.customClassify email
    if (classification.category == "Respond") && env.settings.autoDraft then
      match generateDraftReply env email with
      | .error e =>
        (st, { success := false, emailId := email.id, category := none,
               summary := none, customLabels := none, errorMsg := some e })
      | .ok _ =>
        let st1 := { st with
          stats := incrementStatistic st.stats "draftsGenerated" 1 env.now }
        let st2 := { st1 with
          stats := incrementStatistic st1.stats "hoursSaved" (5 / 60) env.now }
        (st2, { success := true, emailId := email.id,
                category := some classification.category,
                summary := some classification.summary,
                customLabels := some customLabels, errorMsg := none })
    else
      (st, { success := true, emailId := email.id,
             category := some classification.category,
             summary := some classification.summary,
             customLabels := some customLabels, errorMsg := none })

/-! Sync controller.
Source: src/unnamed/part_000, `syncEmails`. -/

/-- Exit path taken by one invocation of `syncEmails`; the source logs and
returns `undefined` everywhere, so the report names which branch ran. -/
inductive SyncReport
  | skippedNotAuthenticated
  | skippedDisabled
  | skippedAlreadyRunning
  | failed (msg : String)
  | completed (processedCount : Nat)
deriving DecidableEq

/-- The per-message loop of `syncEmails`: skip ids already in the dedup
store, otherwise run the processor, count the attempt and mark the id as
processed.  `processEmail` resolves with a result object even on pipeline
failure, so the loop counts and marks every attempted message. -/
def syncLoop (env : Env) : Store → Nat → List Email → Store × Nat
  | st, n, [] => (st, n)
  | st, n, email :: rest =>
    if isEmailProcessed st.processed email.id then
      syncLoop env st n rest
    else
      let st1 := (processEmail env st email).fst
      let st2 := { st1 with processed := markEmailAsProcessed st1.processed email.id }
      syncLoop env st2 (n + 1) rest

/-- Translates `syncEmails()`: guard on authentication, the autoSync
setting and the in-progress flag in that order; then set the flag, list
unread messages, run the loop, clear the flag, update the
emailsProcessed statistic when anything was attempted, and record the
last-sync timestamp.  The outer catch clears the flag and reports the
failure; no path rethrows, so the function is total. -/
def syncEmails (env : Env) (st : Store) : Store × SyncReport :=
  if env.authenticated = false then (st, .skippedNotAuthenticated)
  else if env.settings.autoSync = false then (st, .skippedDisabled)
  else if st.isProcessing then (st, .skippedAlreadyRunning)
  else
    let stOn := { st with isProcessing := true }
    match env.fetchUnreadEmails with
    | .error e => ({ stOn with isProcessing := false }, .failed e)
    | .ok emails =>
      if emails.length = 0 then
        ({ stOn with isProcessing := false }, .completed 0)
      else
        let r := syncLoop env stOn 0 emails
        let stDone := { r.fst with isProcessing := false }
        let stStats :=
          if r.snd > 0 then
            { stDone with
              stats := incrementStatistic stDone.stats "emailsProcessed" (r.snd : ℚ) env.now }
          else stDone
        ({ stStats with lastSync := some env.now }, .completed r.snd)

/-! Concrete baseline objects used by witnesses and counterexamples. -/

/-- A sample message that the fallback classifier places in Respond. -/
def email1 : Email :=
  { id := "m1", threadId := "t1", subject := "Can you review this?",
    sender := "alice@example.com", body := "please review the attached document",
    snippet := "" }

/-- Default settings shape from src/utils/constants.js. -/
def settings0 : Settings :=
  { autoSync := true, autoApplyLabels := true, autoDraft := true,
    enableTranslation := true, defaultTone := "professional" }

/-- Classifier environment with no API key: always the keyword fallback. -/
def classifier0 : ClassifierEnv :=
  { apiKeyPresent := false, requestOutcome := .error "no key",
    extractJson := fun _ => none }

/-- Baseline environment: authenticated, defaults on, one listed message,
all collaborator polish calls unavailable, draft publish succeeding. -/
def env0 : Env :=
  { authenticated := true, settings := settings0, now := 1000,
    fetchUnreadEmails := .ok [email1],
    summarizerKeyPresent := false, summarizeOutcome := fun _ => .error "no key",
    classifier := classifier0,
    customClassify := fun _ => [],
    applyLabel := fun _ _ => .ok (),
    writerOutcome := fun _ => .ok "Draft text",
    rewriterKeyPresent := false, rewriteOutcome := fun _ => .error "down",
    detectorOutcome := fun _ => .ok "en", translatorOutcome := fun _ => .error "down",
    proofreaderKeyPresent := false, proofreadOutcome := fun _ => .error "down",
    createDraftOutcome := fun _ => .ok { draftId := "d1" } }

/-- Empty starting store. -/
def store0 : Store :=
  { processed := [], stats := { fields := fun _ => 0, lastUpdated := 0 },
    lastSync := none, isProcessing := false }

/-- Environment whose label application always fails. -/
def envLabelFail : Env :=
  { env0 with applyLabel := fun _ _ => .error "label api down" }

/-! Dedup store lemmas. -/

lemma mark_append_of_not_mem_of_le {α : Type} [DecidableEq α] {l : List α} {a : α}
    (hmem : a ∉ l) (hlen : l.length + 1 ≤ 1000) :
    markEmailAsProcessed l a = l ++ [a] := by
  unfold markEmailAsProcessed
  rw [if_neg hmem]
  show (l ++ [a]).drop ((l ++ [a]).length - 1000) = l ++ [a]
  have h0 : (l ++ [a]).length - 1000 = 0 := by
    simp only [List.length_append, List.length_singleton]
    omega
  rw [h0, List.drop_zero]

lemma mem_mark_self {α : Type} [DecidableEq α] (l : List α) (a : α) :
    a ∈ markEmailAsProcessed l a := by
  unfold markEmailAsProcessed
  by_cases hmem : a ∈ l
  · simp [hmem]
  · rw [if_neg hmem]
    show a ∈ (l ++ [a]).drop ((l ++ [a]).length - 1000)
    have hle : (l ++ [a]).length - 1000 ≤ l.length := by
      simp only [List.length_append, List.length_singleton]
      omega
    rw [List.drop_append_of_le_length hle]
    simp

lemma nodup_mark {α : Type} [DecidableEq α] {l : List α} (a : α) (h : l.Nodup) :
    (markEmailAsProcessed l a).Nodup := by
  unfold markEmailAsProcessed
  by_cases hmem : a ∈ l
  · simp [hmem, h]
  · rw [if_neg hmem]
    show ((l ++ [a]).drop ((l ++ [a]).length - 1000)).Nodup
    exact ((h.append (List.nodup_singleton a) (by simpa)).sublist (List.drop_sublist _ _))

lemma mark_mem_eq {α : Type} [DecidableEq α] {l : List α} {a : α} (h : a ∈ l) :
    markEmailAsProcessed l a = l := by
  unfold markEmailAsProcessed
  rw [if_pos h]

lemma foldl_mark_eq_append {α : Type} [DecidableEq α] :
    ∀ (ids acc : List α), (acc ++ ids).Nodup → (acc ++ ids).length ≤ 1000 →
      ids.foldl markEmailAsProcessed acc = acc ++ ids := by
  intro ids
  induction ids with
  | nil => intro acc _ _; simp
  | cons a rest ih =>
    intro acc hnd hlen
    have hmem : a ∉ acc := by
      have := List.disjoint_of_nodup_append hnd
      intro hmm
      exact this hmm (by simp)
    have hstep : markEmailAsProcessed acc a = acc ++ [a] := by
      apply mark_append_of_not_mem_of_le hmem
      simp only [List.length_append, List.length_cons] at hlen ⊢
      omega
    have hperm : acc ++ a :: rest = (acc ++ [a]) ++ rest := by simp
    rw [List.foldl_cons, hstep, ih (acc ++ [a]) (by rw [← hperm]; exact hnd)
      (by rw [← hperm]; exact hlen)]
    simp

lemma mark_idem {α : Type} [DecidableEq α] (l : List α) (a : α) :
    markEmailAsProcessed (markEmailAsProcessed l a) a = markEmailAsProcessed l a :=
  mark_mem_eq (mem_mark_self l a)

/-- C6: the Dedup Store add operation is idempotent, keeps ids pairwise
distinct, and is bounded: folding 1001 distinct ids into the empty store
leaves exactly the last 1000 of them, evicting precisely the
oldest-inserted id. -/
theorem dedupStore_idempotent_bounded {α : Type} [DecidableEq α] :
    (∀ (l : List α) (a : α),
      markEmailAsProcessed (markEmailAsProcessed l a) a = markEmailAsProcessed l a) ∧
    (∀ (l : List α) (a : α), l.Nodup → (markEmailAsProcessed l a).Nodup) ∧
    (∀ (ids : List α), ids.Nodup → ids.length = 1001 →
      ids.foldl markEmailAsProcessed [] = ids.drop 1 ∧
      (ids.foldl markEmailAsProcessed []).length = 1000 ∧
      (∀ a, ids.head? = some a → a ∉ ids.foldl markEmailAsProcessed [])) := by
  refine ⟨mark_idem, fun l a h => nodup_mark a h, ?_⟩
  intro ids hnd hlen
  have hmain : ids.foldl markEmailAsProcessed [] = ids.drop 1 := by
    obtain rfl | ⟨init, x, rfl⟩ := ids.eq_nil_or_concat
    · exact absurd hlen (by simp)
    · simp only [List.concat_eq_append] at hnd hlen ⊢
      have hinit_len : init.length = 1000 := by
        simp only [List.length_append, List.length_singleton] at hlen
        omega
      have hinit_nd : init.Nodup := hnd.of_append_left
      have hxmem : x ∉ init := by
        have := List.disjoint_of_nodup_append hnd
        intro hmm
        exact this hmm (by simp)
      have hfold : init.foldl markEmailAsProcessed [] = init := by
        have := foldl_mark_eq_append (α := α) init []
        simpa using this (by simpa) (by simp [hinit_len])
      rw [List.foldl_append, hfold]
      show markEmailAsProcessed init x = (init ++ [x]).drop 1
      unfold markEmailAsProcessed
      rw [if_neg hxmem]
      show (init ++ [x]).drop ((init ++ [x]).length - 1000) = (init ++ [x]).drop 1
      have : (init ++ [x]).length - 1000 = 1 := by
        simp only [List.length_append, List.length_singleton]
        omega
      rw [this]
  refine ⟨hmain, by rw [hmain]; simp [hlen], ?_⟩
  intro a ha
  cases ids with
  | nil => simp at ha
  | cons b t =>
    simp only [List.head?_cons, Option.some.injEq] at ha
    subst ha
    rw [hmain]
    simpa using (List.nodup_cons.mp hnd).1

/-- Witness for C6: 1001 distinct ids, the bound and eviction computed. -/
theorem dedupStore_idempotent_bounded_witness :
    (List.range 1001).Nodup ∧ (List.range 1001).length = 1001 ∧
    (List.range 1001).foldl markEmailAsProcessed [] = (List.range 1001).drop 1 :=
  ⟨List.nodup_range 1001, by simp,
    (dedupStore_idempotent_bounded.2.2 (List.range 1001) (List.nodup_range 1001)
      (by simp)).1⟩

/-! Message processor characterization lemmas. -/

/-- The store effect of one `processEmail` call: either the two draft
counters are bumped or the store is untouched. -/
lemma processEmail_fst (env : Env) (st : Store) (email : Email) :
    (processEmail env st email).fst =
      if draftCounted env email then
        { st with stats :=
            (incrementStatistic (incrementStatistic st.stats "draftsGenerated" 1 env.now)
              "hoursSaved" (5 / 60) env.now) }
      else st := by
  unfold processEmail draftCounted
  rcases h : labelStepResult env email with e | u
  · simp [h, exceptOk]
  · cases hbc : (((classificationOf env email).category == "Respond") && env.settings.autoDraft) with
    | false => simp [h, hbc, exceptOk]
    | true =>
      rcases hg : generateDraftReply env email with e | d
      · simp [h, hbc, hg, exceptOk]
      · simp [h, hbc, hg, exceptOk]

lemma processEmail_processed (env : Env) (st : Store) (email : Email) :
    (processEmail env st email).fst.processed = st.processed := by
  rw [processEmail_fst]
  split <;> rfl

lemma processEmail_isProcessing (env : Env) (st : Store) (email : Email) :
    (processEmail env st email).fst.isProcessing = st.isProcessing := by
  rw [processEmail_fst]
  split <;> rfl

lemma processEmail_emailsProcessed (env : Env) (st : Store) (email : Email) :
    (processEmail env st email).fst.stats.fields "emailsProcessed"
      = st.stats.fields "emailsProcessed" := by
  rw [processEmail_fst]
  split
  · simp [incrementStatistic, setField]
  · rfl

lemma processEmail_draftsGenerated (env : Env) (st : Store) (email : Email) :
    (processEmail env st email).fst.stats.fields "draftsGenerated"
      = st.stats.fields "draftsGenerated"
        + (if draftCounted env email then 1 else 0) := by
  rw [processEmail_fst]
  split
  · simp [incrementStatistic, setField]
  · simp

lemma processEmail_hoursSaved (env : Env) (st : Store) (email : Email) :
    (processEmail env st email).fst.stats.fields "hoursSaved"
      = st.stats.fields "hoursSaved"
        + (if draftCounted env email then (5 : ℚ) / 60 else 0) := by
  rw [processEmail_fst]
  split
  · simp [incrementStatistic, setField]
  · simp

/-! Sync loop lemmas. -/

lemma syncLoop_nil (env : Env) (st : Store) (n : Nat) :
    syncLoop env st n [] = (st, n) := rfl

lemma syncLoop_cons (env : Env) (st : Store) (n : Nat) (e : Email) (rest : List Email) :
    syncLoop env st n (e :: rest)
      = if isEmailProcessed st.processed e.id then syncLoop env st n rest
        else
          syncLoop env
            { (processEmail env st e).fst with
              processed :=
                markEmailAsProcessed (processEmail env st e).fst.processed e.id }
            (n + 1) rest := rfl

/-- Under the practical bound that the batch fits the dedup capacity, the
loop only grows the processed list and ends with every listed id (of
successful and failed messages alike) present. -/
lemma syncLoop_processed_spec (env : Env) :
    ∀ (emails : List Email) (st : Store) (n : Nat),
      st.processed.length + emails.length ≤ 1000 →
      st.processed ⊆ (syncLoop env st n emails).fst.processed ∧
      (syncLoop env st n emails).fst.processed.length
        ≤ st.processed.length + emails.length ∧
      ∀ e ∈ emails, e.id ∈ (syncLoop env st n emails).fst.processed := by
  intro emails
  induction emails with
  | nil =>
    intro st n _
    refine ⟨fun x hx => hx, by simp [syncLoop_nil], by simp⟩
  | cons e rest ih =>
    intro st n hb
    by_cases hmem : isEmailProcessed st.processed e.id = true
    · rw [syncLoop_cons, if_pos hmem]
      have hb2 : st.processed.length + rest.length ≤ 1000 := by
        simp only [List.length_cons] at hb
        omega
      obtain ⟨hsub, hlen, hmm⟩ := ih st n hb2
      refine ⟨hsub, le_trans hlen (by simp), ?_⟩
      intro f hf
      rcases List.mem_cons.mp hf with rfl | hf
      · exact hsub (by simpa [isEmailProcessed] using hmem)
      · exact hmm f hf
    · have hmem' : e.id ∉ st.processed := by
        simpa [isEmailProcessed] using hmem
      have hmark : markEmailAsProcessed st.processed e.id = st.processed ++ [e.id] := by
        apply mark_append_of_not_mem_of_le hmem'
        simp only [List.length_cons] at hb
        omega
      rw [syncLoop_cons, if_neg hmem, processEmail_processed, hmark]
      obtain ⟨hsub, hlen, hmm⟩ :=
        ih { (processEmail env st e).fst with processed := st.processed ++ [e.id] }
          (n + 1)
          (show (st.processed ++ [e.id]).length + rest.length ≤ 1000 by
            simp only [List.length_append, List.length_cons, List.length_nil] at hb ⊢
            omega)
      refine ⟨?_, ?_, ?_⟩
      · intro x hx
        exact hsub (show x ∈ st.processed ++ [e.id] by simp [hx])
      · refine le_trans hlen ?_
        simp only [List.length_append, List.length_cons, List.length_nil]
        omega
      · intro f hf
        rcases List.mem_cons.mp hf with rfl | hf
        · exact hsub (show f.id ∈ st.processed ++ [f.id] by simp)
        · exact hmm f hf

/-- Full characterization of the loop on a fresh, duplicate-free batch
that fits the dedup capacity: ids are appended in order, every message is
counted as attempted, and the draft counters advance by the number of
messages that completed the draft branch. -/
lemma syncLoop_spec (env : Env) :
    ∀ (emails : List Email) (st : Store) (n : Nat),
      (∀ e ∈ emails, e.id ∉ st.processed) →
      (emails.map Email.id).Nodup →
      st.processed.length + emails.length ≤ 1000 →
      (syncLoop env st n emails).fst.processed
          = st.processed ++ emails.map Email.id ∧
      (syncLoop env st n emails).snd = n + emails.length ∧
      (syncLoop env st n emails).fst.stats.fields "emailsProcessed"
          = st.stats.fields "emailsProcessed" ∧
      (syncLoop env st n emails).fst.stats.fields "draftsGenerated"
          = st.stats.fields "draftsGenerated"
            + (((emails.filter (fun e => draftCounted env e)).length : ℚ)) ∧
      (syncLoop env st n emails).fst.stats.fields "hoursSaved"
          = st.stats.fields "hoursSaved"
            + (((emails.filter (fun e => draftCounted env e)).length : ℚ)) * (5 / 60) ∧
      (syncLoop env st n emails).fst.isProcessing = st.isProcessing := by
  intro emails
  induction emails with
  | nil =>
    intro st n _ _ _
    simp [syncLoop_nil]
  | cons e rest ih =>
    intro st n hfresh hnd hb
    have hmem : ¬ isEmailProcessed st.processed e.id = true := by
      simpa [isEmailProcessed] using hfresh e (by simp)
    have hmark : markEmailAsProcessed st.processed e.id = st.processed ++ [e.id] := by
      apply mark_append_of_not_mem_of_le (hfresh e (by simp))
      simp only [List.length_cons] at hb
      omega
    rw [syncLoop_cons, if_neg hmem, processEmail_processed, hmark]
    have hfresh2 : ∀ f ∈ rest,
        f.id ∉ ({ (processEmail env st e).fst with
                  processed := st.processed ++ [e.id] } : Store).processed := by
      intro f hf
      show f.id ∉ st.processed ++ [e.id]
      simp only [List.mem_append, List.mem_singleton]
      rintro (hin | hid)
      · exact hfresh f (by simp [hf]) hin
      · have hnotin : e.id ∉ rest.map Email.id :=
          (List.nodup_cons.mp (by simpa using hnd)).1
        exact hnotin (hid ▸ List.mem_map_of_mem Email.id hf)
    have hnd2 : (rest.map Email.id).Nodup := (List.nodup_cons.mp (by simpa using hnd)).2
    obtain ⟨hp, hn, hep, hdg, hhs, hip⟩ :=
      ih { (processEmail env st e).fst with processed := st.processed ++ [e.id] }
        (n + 1) hfresh2 hnd2
        (show (st.processed ++ [e.id]).length + rest.length ≤ 1000 by
          simp only [List.length_append, List.length_cons, List.length_nil] at hb ⊢
          omega)
    have hstats : ({ (processEmail env st e).fst with
        processed := st.processed ++ [e.id] } : Store).stats
          = (processEmail env st e).fst.stats := rfl
    have hflag : ({ (processEmail env st e).fst with
        processed := st.processed ++ [e.id] } : Store).isProcessing
          = (processEmail env st e).fst.isProcessing := rfl
    rw [hstats] at hep hdg hhs
    rw [hflag] at hip
    refine ⟨?_, ?_, ?_, ?_, ?_, ?_⟩
    · rw [hp]
      show st.processed ++ [e.id] ++ rest.map Email.id = _
      simp
    · rw [hn]
      simp only [List.length_cons]
      omega
    · rw [hep, processEmail_emailsProcessed]
    · rw [hdg, processEmail_draftsGenerated, List.filter_cons]
      by_cases hd : draftCounted env e = true
      · simp only [hd, if_true, if_pos, List.length_cons]
        push_cast
        ring
      · simp only [hd, Bool.false_eq_true, if_false]
        simp [hd]
    · rw [hhs, processEmail_hoursSaved, List.filter_cons]
      by_cases hd : draftCounted env e = true
      · simp only [hd, if_true, if_pos, List.length_cons]
        push_cast
        ring
      · simp only [hd, Bool.false_eq_true, if_false]
        simp [hd]
    · rw [hip, processEmail_isProcessing]

/-- Unfolding of a cycle that passes all three guards and lists a
non-empty batch. -/
lemma syncEmails_run (env : Env) (st : Store) (emails : List Email)
    (ha : env.authenticated = true) (hs : env.settings.autoSync = true)
    (hp : st.isProcessing = false) (hf : env.fetchUnreadEmails = .ok emails)
    (hne : emails ≠ []) :
    syncEmails env st =
      (let r := syncLoop env { st with isProcessing := true } 0 emails
       let stDone := { r.fst with isProcessing := false }
       let stStats :=
         if r.snd > 0 then
           { stDone with
             stats := incrementStatistic stDone.stats "emailsProcessed" (r.snd : ℚ) env.now }
         else stDone
       ({ stStats with lastSync := some env.now }, SyncReport.completed r.snd)) := by
  unfold syncEmails
  rw [if_neg (by simp [ha]), if_neg (by simp [hs]), if_neg (by simp [hp]), hf]
  show (if emails.length = 0 then _ else _) = _
  rw [if_neg (by simp [hne])]

/-- C10: an unauthenticated user makes the cycle an immediate no-op: the
store (flag, dedup list, statistics, last-sync stamp) is returned
unchanged, and the result is the same for every possible mailbox-listing
outcome, so no listing is consulted. -/
theorem syncEmails_unauthenticated_noop :
    ∀ (env : Env) (st : Store), env.authenticated = false →
      syncEmails env st = (st, SyncReport.skippedNotAuthenticated) ∧
      ∀ fetch, syncEmails { env with fetchUnreadEmails := fetch } st
          = (st, SyncReport.skippedNotAuthenticated) := by
  intro env st h
  constructor
  · simp [syncEmails, h]
  · intro fetch
    simp [syncEmails, h]

/-- Witness for C10 at a concrete unauthenticated environment. -/
theorem syncEmails_unauthenticated_noop_witness :
    ({ env0 with authenticated := false } : Env).authenticated = false ∧
    syncEmails { env0 with authenticated := false } store0
      = (store0, SyncReport.skippedNotAuthenticated) :=
  ⟨rfl, (syncEmails_unauthenticated_noop { env0 with authenticated := false } store0 rfl).1⟩

/-- C4 counterexample: with auto-sync disabled while a cycle is already in
progress, the code reports the disabled skip, refuting the claimed
precedence of the already-running check over the settings check. -/
theorem syncEmails_guard_order_cex :
    ({ env0 with settings := { settings0 with autoSync := false } } : Env).authenticated
        = true ∧
    ({ store0 with isProcessing := true } : Store).isProcessing = true ∧
    (syncEmails { env0 with settings := { settings0 with autoSync := false } }
        { store0 with isProcessing := true }).snd = SyncReport.skippedDisabled ∧
    SyncReport.skippedDisabled ≠ SyncReport.skippedAlreadyRunning :=
  ⟨rfl, rfl, rfl, by decide⟩

/-- C4 (amended): the guards run in the order authentication, auto-sync
setting, in-progress flag; each is a state-free fast exit, and only when
all three pass is the flag set and the mailbox listing consulted. -/
theorem syncEmails_guard_order :
    ∀ (env : Env) (st : Store),
      (env.authenticated = false →
        syncEmails env st = (st, SyncReport.skippedNotAuthenticated)) ∧
      (env.authenticated = true → env.settings.autoSync = false →
        syncEmails env st = (st, SyncReport.skippedDisabled)) ∧
      (env.authenticated = true → env.settings.autoSync = true →
        st.isProcessing = true →
        syncEmails env st = (st, SyncReport.skippedAlreadyRunning)) ∧
      (∀ msg, env.authenticated = true → env.settings.autoSync = true →
        st.isProcessing = false → env.fetchUnreadEmails = .error msg →
        syncEmails env st
          = ({ st with isProcessing := false }, SyncReport.failed msg)) := by
  intro env st
  refine ⟨fun h => by simp [syncEmails, h], fun ha hs => by simp [syncEmails, ha, hs],
    fun ha hs hp => by simp [syncEmails, ha, hs, hp], fun msg ha hs hp hf => ?_⟩
  unfold syncEmails
  rw [if_neg (by simp [ha]), if_neg (by simp [hs]), if_neg (by simp [hp]), hf]

/-- Witness for C4 instantiating each guard clause concretely. -/
theorem syncEmails_guard_order_witness :
    env0.authenticated = true ∧
    ({ env0 with settings := { settings0 with autoSync := false } } : Env).settings.autoSync
        = false ∧
    syncEmails { env0 with settings := { settings0 with autoSync := false } } store0
        = (store0, SyncReport.skippedDisabled) ∧
    syncEmails env0 { store0 with isProcessing := true }
        = ({ store0 with isProcessing := true }, SyncReport.skippedAlreadyRunning) :=
  ⟨rfl, rfl,
    (syncEmails_guard_order { env0 with settings := { settings0 with autoSync := false } }
        store0).2.1 rfl rfl,
    (syncEmails_guard_order env0 { store0 with isProcessing := true }).2.2.1 rfl rfl rfl⟩

/-- C5: once the guards pass, no collaborator failure leaves the
in-progress flag set: the store returned by the cycle always has the flag
cleared, and specifically a mailbox-listing error yields a failed report
with the flag back to false; errors are returned as report values, never
rethrown. -/
theorem syncEmails_clears_flag :
    ∀ (env : Env) (st : Store),
      env.authenticated = true → env.settings.autoSync = true →
      st.isProcessing = false →
      (syncEmails env st).fst.isProcessing = false ∧
      (∀ msg, env.fetchUnreadEmails = .error msg →
        syncEmails env st
          = ({ st with isProcessing := false }, SyncReport.failed msg)) := by
  intro env st ha hs hp
  constructor
  · rcases hf : env.fetchUnreadEmails with msg | emails
    · unfold syncEmails
      rw [if_neg (by simp [ha]), if_neg (by simp [hs]), if_neg (by simp [hp]), hf]
    · rcases hemp : emails with _ | ⟨e, rest⟩
      · unfold syncEmails
        rw [if_neg (by simp [ha]), if_neg (by simp [hs]), if_neg (by simp [hp]), hf]
        subst hemp
        rfl
      · rw [syncEmails_run env st (e :: rest) ha hs hp (hemp ▸ hf) (by simp)]
        show (if _ > 0 then _ else _ : Store).isProcessing = false
        split <;> rfl
  · intro msg hf
    unfold syncEmails
    rw [if_neg (by simp [ha]), if_neg (by simp [hs]), if_neg (by simp [hp]), hf]

/-- Witness for C5 at a concrete environment whose listing call fails. -/
theorem syncEmails_clears_flag_witness :
    ({ env0 with fetchUnreadEmails := .error "network down" } : Env).authenticated = true ∧
    store0.isProcessing = false ∧
    (syncEmails { env0 with fetchUnreadEmails := .error "network down" }
        store0).fst.isProcessing = false :=
  ⟨rfl, rfl,
    (syncEmails_clears_flag { env0 with fetchUnreadEmails := .error "network down" }
        store0 rfl rfl rfl).1⟩

/-- The post-loop bookkeeping of a cycle does not touch the processed
list. -/
lemma syncEmails_run_processed (env : Env) (st : Store) (emails : List Email)
    (ha : env.authenticated = true) (hs : env.settings.autoSync = true)
    (hp : st.isProcessing = false) (hf : env.fetchUnreadEmails = .ok emails)
    (hne : emails ≠ []) :
    (syncEmails env st).fst.processed
      = (syncLoop env { st with isProcessing := true } 0 emails).fst.processed := by
  rw [syncEmails_run env st emails ha hs hp hf hne]
  dsimp only []
  split <;> rfl

/-- C1 counterexample: under a failing label collaborator the single
message's pipeline fails, yet its id is inserted into the Dedup Store by
the cycle. -/
theorem syncCycle_failed_message_marked_cex :
    (processEmail envLabelFail store0 email1).snd.success = false ∧
    (syncEmails envLabelFail store0).fst.processed = ["m1"] := by
  exact ⟨rfl, rfl⟩

/-- C1 (amended): a cycle inserts into the Dedup Store the id of every
listed message it attempts, whether the message's pipeline succeeded or
failed, because the Message Processor converts pipeline errors into a
failed result instead of throwing; a failed message is therefore not
retried on the next cycle.  The bound keeps the batch within the store
capacity (listing is capped at 10 in the source). -/
theorem syncCycle_marks_attempted_messages :
    ∀ (env : Env) (st : Store) (emails : List Email),
      env.authenticated = true → env.settings.autoSync = true →
      st.isProcessing = false →
      env.fetchUnreadEmails = .ok emails →
      st.processed.length + emails.length ≤ 1000 →
      ∀ e ∈ emails, e.id ∈ (syncEmails env st).fst.processed := by
  intro env st emails ha hs hp hf hb e he
  rcases emails with _ | ⟨f, rest⟩
  · simp at he
  · rw [syncEmails_run_processed env st (f :: rest) ha hs hp hf (by simp)]
    obtain ⟨_, _, hmm⟩ :=
      syncLoop_processed_spec env (f :: rest) { st with isProcessing := true } 0
        (show st.processed.length + (f :: rest).length ≤ 1000 from hb)
    exact hmm e he

/-- Witness for C1: the concrete failing message of the counterexample is
in the store after the cycle. -/
theorem syncCycle_marks_attempted_messages_witness :
    envLabelFail.authenticated = true ∧
    envLabelFail.fetchUnreadEmails = .ok [email1] ∧
    store0.processed.length + [email1].length ≤ 1000 ∧
    email1.id ∈ (syncEmails envLabelFail store0).fst.processed :=
  ⟨rfl, rfl, by decide,
    syncCycle_marks_attempted_messages envLabelFail store0 [email1] rfl rfl rfl rfl
      (by decide) email1 (by simp)⟩

/-- C3 counterexample: a cycle whose only message fails its pipeline still
increments the processed-messages statistic from 0 to 1, although zero
messages completed successfully. -/
theorem syncCycle_statistics_failed_cex :
    (processEmail envLabelFail store0 email1).snd.success = false ∧
    store0.stats.fields "emailsProcessed" = 0 ∧
    (syncEmails envLabelFail store0).fst.stats.fields "emailsProcessed" = 1 := by
  refine ⟨rfl, rfl, ?_⟩
  show ((0 : ℚ) + (1 : Nat)) = 1
  norm_num

/-- C3 (amended): after a non-skipped cycle over a fresh, duplicate-free
batch, the emailsProcessed counter grows by the number of attempted
messages — including messages whose pipeline failed — while
draftsGenerated grows by the number M of messages that completed the
draft branch and hoursSaved grows by M * (5/60). -/
theorem syncCycle_statistics_delta :
    ∀ (env : Env) (st : Store) (emails : List Email),
      env.authenticated = true → env.settings.autoSync = true →
      st.isProcessing = false →
      env.fetchUnreadEmails = .ok emails →
      (∀ e ∈ emails, e.id ∉ st.processed) →
      (emails.map Email.id).Nodup →
      st.processed.length + emails.length ≤ 1000 →
      (syncEmails env st).fst.stats.fields "emailsProcessed"
          = st.stats.fields "emailsProcessed" + (emails.length : ℚ) ∧
      (syncEmails env st).fst.stats.fields "draftsGenerated"
          = st.stats.fields "draftsGenerated"
            + ((emails.filter (fun e => draftCounted env e)).length : ℚ) ∧
      (syncEmails env st).fst.stats.fields "hoursSaved"
          = st.stats.fields "hoursSaved"
            + ((emails.filter (fun e => draftCounted env e)).length : ℚ) * (5 / 60) := by
  intro env st emails ha hs hp hf hfresh hnd hb
  rcases emails with _ | ⟨f, rest⟩
  · unfold syncEmails
    rw [if_neg (by simp [ha]), if_neg (by simp [hs]), if_neg (by simp [hp]), hf]
    refine ⟨by simp, by simp, by simp⟩
  · obtain ⟨hloopP, hloopN, hep, hdg, hhs, _⟩ :=
      syncLoop_spec env (f :: rest) { st with isProcessing := true } 0
        (show ∀ e ∈ f :: rest, e.id ∉ st.processed from hfresh) hnd
        (show st.processed.length + (f :: rest).length ≤ 1000 from hb)
    have hpos : (syncLoop env { st with isProcessing := true } 0 (f :: rest)).snd > 0 := by
      rw [hloopN]
      simp
    rw [syncEmails_run env st (f :: rest) ha hs hp hf (by simp)]
    dsimp only []
    rw [if_pos hpos]
    refine ⟨?_, ?_, ?_⟩
    · show (incrementStatistic _ "emailsProcessed" _ env.now).fields "emailsProcessed" = _
      simp only [incrementStatistic, setField, if_pos rfl]
      rw [show ({ (syncLoop env { st with isProcessing := true } 0 (f :: rest)).fst with
            isProcessing := false } : Store).stats
          = (syncLoop env { st with isProcessing := true } 0 (f :: rest)).fst.stats from rfl]
      rw [hep, hloopN]
      push_cast
      ring
    · show (incrementStatistic _ "emailsProcessed" _ env.now).fields "draftsGenerated" = _
      simp only [incrementStatistic, setField, if_neg (by decide : ¬ "draftsGenerated" = "emailsProcessed")]
      rw [show ({ (syncLoop env { st with isProcessing := true } 0 (f :: rest)).fst with
            isProcessing := false } : Store).stats
          = (syncLoop env { st with isProcessing := true } 0 (f :: rest)).fst.stats from rfl]
      exact hdg
    · show (incrementStatistic _ "emailsProcessed" _ env.now).fields "hoursSaved" = _
      simp only [incrementStatistic, setField, if_neg (by decide : ¬ "hoursSaved" = "emailsProcessed")]
      rw [show ({ (syncLoop env { st with isProcessing := true } 0 (f :: rest)).fst with
            isProcessing := false } : Store).stats
          = (syncLoop env { st with isProcessing := true } 0 (f :: rest)).fst.stats from rfl]
      exact hhs

/-- Witness for C3: the baseline cycle attempts one message which also
generates a draft; all three counters move as characterized. -/
theorem syncCycle_statistics_delta_witness :
    env0.fetchUnreadEmails = .ok [email1] ∧
    ([email1].map Email.id).Nodup ∧
    (syncEmails env0 store0).fst.stats.fields "emailsProcessed"
        = store0.stats.fields "emailsProcessed" + (([email1] : List Email).length : ℚ) :=
  ⟨rfl, by simp,
    (syncCycle_statistics_delta env0 store0 [email1] rfl rfl rfl rfl
      (by simp [store0]) (by simp) (by decide)).1⟩

/-- C2 counterexample: with label auto-apply on and a failing label
collaborator, the ProcessingResult reports failure with no category,
not a success with the computed category. -/
theorem processEmail_applyLabel_failure_cex :
    envLabelFail.settings.autoApplyLabels = true ∧
    envLabelFail.applyLabel email1.id (classificationOf envLabelFail email1).category
        = .error "label api down" ∧
    (processEmail envLabelFail store0 email1).snd
        = { success := false, emailId := "m1", category := none, summary := none,
            customLabels := none, errorMsg := some "label api down" } :=
  ⟨rfl, rfl, rfl⟩

/-- C2 (amended): a failure of the category apply-label step propagates to
the processor boundary and the ProcessingResult reports failure, leaving
the store untouched; once the label step has succeeded (or labels are
disabled), the outcome can only fail through the draft sub-pipeline — in
particular custom-label application failures never change it. -/
theorem processEmail_applyLabel_policy :
    ∀ (env : Env) (st : Store) (email : Email),
      (∀ msg, env.settings.autoApplyLabels = true →
        env.applyLabel email.id (classificationOf env email).category = .error msg →
        (processEmail env st email).snd.success = false ∧
        (processEmail env st email).fst = st) ∧
      (∀ u, labelStepResult env email = .ok u →
        ((processEmail env st email).snd.success = false ↔
          ((((classificationOf env email).category == "Respond")
              && env.settings.autoDraft) = true ∧
            ∃ msg, generateDraftReply env email = .error msg))) := by
  intro env st email
  constructor
  · intro msg hauto herr
    have hlab : labelStepResult env email = .error msg := by
      unfold labelStepResult
      rw [if_pos hauto]
      exact herr
    constructor
    · show (processEmail env st email).snd.success = false
      unfold processEmail
      rw [hlab]
    · show (processEmail env st email).fst = st
      unfold processEmail
      rw [hlab]
  · intro u hlab
    unfold processEmail
    rw [hlab]
    cases hbc : (((classificationOf env email).category == "Respond")
        && env.settings.autoDraft) with
    | false =>
      simp
      have hno : ¬((classificationOf env email).category = "Respond"
          ∧ env.settings.autoDraft = true) := by
        rintro ⟨h1, h2⟩
        rw [h1, h2] at hbc
        simp at hbc
      rw [if_neg hno]
    | true =>
      have hyes : (classificationOf env email).category = "Respond"
          ∧ env.settings.autoDraft = true := by
        rw [Bool.and_eq_true] at hbc
        exact ⟨by simpa using hbc.1, hbc.2⟩
      rcases hg : generateDraftReply env email with msg | d
      · simp [hg]
        rw [if_pos hyes]
      · simp [hg]
        rw [if_pos hyes]

/-- Witness for C2 applying the failure clause at the concrete inputs. -/
theorem processEmail_applyLabel_policy_witness :
    envLabelFail.settings.autoApplyLabels = true ∧
    envLabelFail.applyLabel email1.id (classificationOf envLabelFail email1).category
        = .error "label api down" ∧
    (processEmail envLabelFail store0 email1).snd.success = false :=
  ⟨rfl, rfl,
    ((processEmail_applyLabel_policy envLabelFail store0 email1).1 "label api down"
      rfl rfl).1⟩

/-! Category closure helper lemmas. -/

lemma parse_category_mem (extract : String → Option ParsedJson) (content : String) :
    (parseClassificationResponse extract content).category ∈ EMAIL_CATEGORIES := by
  unfold parseClassificationResponse
  rcases h : extract content with _ | p
  · simp [EMAIL_CATEGORIES]
  · dsimp only []
    rcases hc : p.category with _ | c
    · simp [EMAIL_CATEGORIES]
    · show (if EMAIL_CATEGORIES.contains c = true then c else "Notification")
          ∈ EMAIL_CATEGORIES
      by_cases hmem : EMAIL_CATEGORIES.contains c = true
      · rw [if_pos hmem]
        simpa using hmem
      · rw [if_neg hmem]
        simp [EMAIL_CATEGORIES]

lemma fallback_category_mem (s : String) (m : EmailMeta) :
    (fallbackClassification s m).category ∈ EMAIL_CATEGORIES := by
  unfold fallbackClassification
  dsimp only []
  split
  · simp [EMAIL_CATEGORIES]
  · split
    · simp [EMAIL_CATEGORIES]
    · split <;> simp [EMAIL_CATEGORIES]

lemma classify_category_mem (cenv : ClassifierEnv) (s : String) (m : EmailMeta) :
    (classifyEmail cenv s m).category ∈ EMAIL_CATEGORIES := by
  unfold classifyEmail
  split
  · exact fallback_category_mem s m
  · rcases cenv.requestOutcome with _ | content
    · exact fallback_category_mem s m
    · exact parse_category_mem cenv.extractJson _

/-- C7: whatever the classifier collaborator returns — parsable or not —
the produced category is one of the three enumerated strings, and a
parsed category outside the enumeration is coerced to Notification. -/
theorem classification_category_closure :
    (∀ (extract : String → Option ParsedJson) (content : String),
      (parseClassificationResponse extract content).category ∈ EMAIL_CATEGORIES) ∧
    (∀ (s : String) (m : EmailMeta),
      (fallbackClassification s m).category ∈ EMAIL_CATEGORIES) ∧
    (∀ (cenv : ClassifierEnv) (s : String) (m : EmailMeta),
      (classifyEmail cenv s m).category ∈ EMAIL_CATEGORIES) ∧
    (∀ (extract : String → Option ParsedJson) (content : String)
        (p : ParsedJson) (c : String),
      extract content = some p → p.category = some c → c ∉ EMAIL_CATEGORIES →
      (parseClassificationResponse extract content).category = "Notification") := by
  refine ⟨parse_category_mem, fallback_category_mem, classify_category_mem, ?_⟩
  intro extract content p c h1 h2 h3
  unfold parseClassificationResponse
  rw [h1]
  dsimp only []
  rw [h2]
  dsimp only []
  rw [if_neg (by simpa using h3)]

/-- Witness for C7: an unrecognized parsed category is coerced. -/
theorem classification_category_closure_witness :
    ((fun _ => some { category := some "Garbage", summary := none }
        : String → Option ParsedJson) "x"
      = some { category := some "Garbage", summary := none }) ∧
    ("Garbage" : String) ∉ EMAIL_CATEGORIES ∧
    (parseClassificationResponse
        (fun _ => some { category := some "Garbage", summary := none }) "x").category
      = "Notification" :=
  ⟨rfl, by decide,
    classification_category_closure.2.2.2
      (fun _ => some { category := some "Garbage", summary := none }) "x"
      { category := some "Garbage", summary := none } "Garbage" rfl rfl (by decide)⟩

/-- C8: the fallback classifier applies the three keyword tiers in the
source order — advertisement on summary text or subject, else
notification on sender or subject, else response indicators, else
Notification — and the three concrete inputs from the spec land on
Advertisement, Respond and Notification respectively. -/
theorem fallback_three_tier :
    (∀ (s : String) (m : EmailMeta),
      adKeywords.any (fun k =>
        jsIncludes (jsToLower s) k || jsIncludes (jsToLower m.subject) k) = true →
      (fallbackClassification s m).category = "Advertisement") ∧
    (∀ (s : String) (m : EmailMeta),
      adKeywords.any (fun k =>
        jsIncludes (jsToLower s) k || jsIncludes (jsToLower m.subject) k) = false →
      notificationKeywords.any (fun k =>
        jsIncludes (jsToLower m.sender) k || jsIncludes (jsToLower m.subject) k) = true →
      (fallbackClassification s m).category = "Notification") ∧
    (∀ (s : String) (m : EmailMeta),
      adKeywords.any (fun k =>
        jsIncludes (jsToLower s) k || jsIncludes (jsToLower m.subject) k) = false →
      notificationKeywords.any (fun k =>
        jsIncludes (jsToLower m.sender) k || jsIncludes (jsToLower m.subject) k) = false →
      responseKeywords.any (fun k =>
        jsIncludes (jsToLower s) k || jsIncludes (jsToLower m.subject) k) = true →
      (fallbackClassification s m).category = "Respond") ∧
    (∀ (s : String) (m : EmailMeta),
      adKeywords.any (fun k =>
        jsIncludes (jsToLower s) k || jsIncludes (jsToLower m.subject) k) = false →
      notificationKeywords.any (fun k =>
        jsIncludes (jsToLower m.sender) k || jsIncludes (jsToLower m.subject) k) = false →
      responseKeywords.any (fun k =>
        jsIncludes (jsToLower s) k || jsIncludes (jsToLower m.subject) k) = false →
      (fallbackClassification s m).category = "Notification") ∧
    (fallbackClassification ""
        { subject := "50% off sale - unsubscribe now", sender := "" }).category
      = "Advertisement" ∧
    (fallbackClassification ""
        { subject := "Can you review this by Friday?", sender := "" }).category
      = "Respond" ∧
    (fallbackClassification "receipt confirmation"
        { subject := "", sender := "no-reply@service.com" }).category
      = "Notification" := by
  refine ⟨?_, ?_, ?_, ?_, rfl, rfl, rfl⟩
  · intro s m h1
    unfold fallbackClassification
    dsimp only []
    rw [if_pos h1]
  · intro s m h1 h2
    unfold fallbackClassification
    dsimp only []
    rw [if_neg (by simp [h1]), if_pos h2]
  · intro s m h1 h2 h3
    unfold fallbackClassification
    dsimp only []
    rw [if_neg (by simp [h1]), if_neg (by simp [h2]), if_pos h3]
  · intro s m h1 h2 h3
    unfold fallbackClassification
    dsimp only []
    rw [if_neg (by simp [h1]), if_neg (by simp [h2]), if_neg (by simp [h3])]

/-- Witness for C8 instantiating the advertisement tier concretely. -/
theorem fallback_three_tier_witness :
    adKeywords.any (fun k =>
        jsIncludes (jsToLower ("" : String)) k
          || jsIncludes (jsToLower ("50% off sale - unsubscribe now" : String)) k) = true ∧
    (fallbackClassification ""
        { subject := "50% off sale - unsubscribe now", sender := "" }).category
      = "Advertisement" :=
  ⟨by decide,
    fallback_three_tier.1 "" { subject := "50% off sale - unsubscribe now", sender := "" }
      (by decide)⟩

/-- Environment whose draft publish call fails. -/
def envPublishFail : Env :=
  { env0 with createDraftOutcome := fun _ => .error "draft api down" }

/-- C9: each polish stage of the draft sub-pipeline falls back to its
input text on failure (missing key or thrown request), while the outcome
of the sub-pipeline is exactly the outcome of the final publish call on
the proofread text — so only a publish failure surfaces as the
sub-pipeline error; with every polish collaborator failing, the published
text is the generated draft unchanged. -/
theorem draft_pipeline_failure_policy :
    (∀ (k : Bool) (msg t : String), rewriteDraft k (.error msg) t = t) ∧
    (∀ (o : Except String String) (t : String), rewriteDraft false o t = t) ∧
    (∀ (s : Settings) (d : Except String String)
        (tr : String → Except String String) (t orig msg : String),
      tr t = .error msg → translateDraftIfNeeded s d tr t orig = t) ∧
    (∀ (k : Bool) (msg t : String), proofreadDraft k (.error msg) t = t) ∧
    (∀ (o : Except String String) (t : String), proofreadDraft false o t = t) ∧
    (∀ (env : Env) (email : Email),
      generateDraftReply env email
        = env.createDraftOutcome (draftAfterProofread env email)) ∧
    (∀ (env : Env) (email : Email) (msg : String),
      env.createDraftOutcome (draftAfterProofread env email) = .error msg →
      generateDraftReply env email = .error msg) ∧
    (∀ (env : Env) (email : Email),
      env.rewriterKeyPresent = false → env.proofreaderKeyPresent = false →
      env.settings.enableTranslation = false →
      draftAfterProofread env email = draftAfterGenerate env email) := by
  refine ⟨?_, ?_, ?_, ?_, ?_, ?_, ?_, ?_⟩
  · intro k msg t
    unfold rewriteDraft
    split <;> rfl
  · intro o t
    unfold rewriteDraft
    rw [if_pos rfl]
  · intro s d tr t orig msg htr
    unfold translateDraftIfNeeded
    split
    · rfl
    · dsimp only []
      split
      · rfl
      · unfold translateText
        rw [htr]
  · intro k msg t
    unfold proofreadDraft
    split <;> rfl
  · intro o t
    unfold proofreadDraft
    rw [if_pos rfl]
  · intro env email
    unfold generateDraftReply createDraft
    rcases env.createDraftOutcome (draftAfterProofread env email) with msg | d <;> rfl
  · intro env email msg h
    unfold generateDraftReply createDraft
    rw [h]
  · intro env email hk hpk htr
    unfold draftAfterProofread proofreadDraft
    rw [if_pos hpk]
    unfold draftAfterTranslate translateDraftIfNeeded
    rw [if_pos htr]
    unfold draftAfterRewrite rewriteDraft
    rw [if_pos hk]

/-- Witness for C9: a concrete failing publish propagates, and the fully
degraded pipeline publishes the generated text. -/
theorem draft_pipeline_failure_policy_witness :
    envPublishFail.createDraftOutcome (draftAfterProofread envPublishFail email1)
        = .error "draft api down" ∧
    generateDraftReply envPublishFail email1 = .error "draft api down" ∧
    rewriteDraft true (.error "down") "text1" = "text1" ∧
    proofreadDraft true (.error "down") "text2" = "text2" :=
  ⟨rfl,
    draft_pipeline_failure_policy.2.2.2.2.2.2.1 envPublishFail email1 "draft api down" rfl,
    draft_pipeline_failure_policy.1 true "down" "text1",
    draft_pipeline_failure_policy.2.2.2.1 true "down" "text2"⟩

end EmailAI
